import Mathlib

/-!
Verification of the EEFC flash-controller driver
(src/libs/atsam4-hal/c/efc.c and src/libs/atsam4-hal/c/efc.h).

The two C functions `efc_perform_read_sequence` and `efc_perform_fcr` are
embedded as pure Lean functions.  Volatile reads of the status register
EEFC_FSR are modelled by a poll trace `fsrTrace : ℕ → ℕ` giving the value
returned by the k-th read of EEFC_FSR during the call.  The unbounded
busy-wait loops of the C code are modelled with a fuel parameter: a loop
that has not exited when the fuel runs out corresponds to the C call still
blocking (result `none`).  Every hardware register access and every write
into the caller's output buffer is recorded in an event list, so that
frame properties (which registers are touched, which buffer cells are
written, in which order) are provable.  Machine integers are natural
numbers; all register values stay below 2^32 because every write is
built from masked fields.
-/

/-- Flash writing protection key, `#define FWP_KEY 0x5Au` in efc.c. -/
def FWP_KEY : ℕ := 0x5A

/-- Modelled from the spec: `EEFC_FCR_FKEY_PASSWD` comes from the chip header
`component_efc.h`, which is not part of the sources.  The spec's register
table places the protection key, fixed value 0x5A, in bits 31:24 of the
Command register. -/
def EEFC_FCR_FKEY_PASSWD : ℕ := FWP_KEY <<< 24

/-- Modelled from the spec: `EEFC_FCR_FARG` comes from the chip header
`component_efc.h`, which is not part of the sources.  The spec leaves the
exact placement of the argument field implementation-defined; it is placed
in the 16 bits between the command-code byte and the key byte (bits 23:8),
masked to the field width. -/
def EEFC_FCR_FARG (value : ℕ) : ℕ := (0xFFFF <<< 8) &&& (value <<< 8)

/-- Modelled from the spec: `EEFC_FCR_FCMD_Msk` from `component_efc.h`
(missing from the sources); the command code is an 8-bit field. -/
def EEFC_FCR_FCMD_Msk : ℕ := 0xFF

/-- Modelled from the spec: `EEFC_FCR_FCMD_Pos` from `component_efc.h`
(missing from the sources); the spec's table puts the command code in
bits 7:0 of the Command register. -/
def EEFC_FCR_FCMD_Pos : ℕ := 0

/-- The macro `EEFC_FCR_FCMD(value)` defined in efc.c:
`(EEFC_FCR_FCMD_Msk & ((value) << EEFC_FCR_FCMD_Pos))`. -/
def EEFC_FCR_FCMD (value : ℕ) : ℕ := EEFC_FCR_FCMD_Msk &&& (value <<< EEFC_FCR_FCMD_Pos)

/-- Modelled from the spec: `EEFC_FSR_FRDY` from `component_efc.h` (missing
from the sources); the Ready bit of the Status register. -/
def EEFC_FSR_FRDY : ℕ := 1 <<< 0

/-- Modelled from the spec: `EEFC_FSR_FCMDE` from `component_efc.h` (missing
from the sources); the CommandError bit of the Status register. -/
def EEFC_FSR_FCMDE : ℕ := 1 <<< 1

/-- Modelled from the spec: `EEFC_FSR_FLOCKE` from `component_efc.h` (missing
from the sources); the LockError bit of the Status register. -/
def EEFC_FSR_FLOCKE : ℕ := 1 <<< 2

/-- Modelled from the spec: `EEFC_FSR_FLERR` from `component_efc.h` (missing
from the sources); the ProgrammingError bit of the Status register. -/
def EEFC_FSR_FLERR : ℕ := 1 <<< 3

/-- The macro `EEFC_ERROR_FLAGS` defined in efc.c:
`(EEFC_FSR_FLOCKE | EEFC_FSR_FCMDE | EEFC_FSR_FLERR)`. -/
def EEFC_ERROR_FLAGS : ℕ := EEFC_FSR_FLOCKE ||| EEFC_FSR_FCMDE ||| EEFC_FSR_FLERR

/-- Return code `EFC_RC_OK` of the `efc_rc` enumeration in efc.h. -/
def EFC_RC_OK : ℕ := 0

/-- Return code `EFC_RC_YES` of the `efc_rc` enumeration in efc.h. -/
def EFC_RC_YES : ℕ := 0

/-- Return code `EFC_RC_NO` of the `efc_rc` enumeration in efc.h. -/
def EFC_RC_NO : ℕ := 1

/-- Return code `EFC_RC_ERROR` of the `efc_rc` enumeration in efc.h. -/
def EFC_RC_ERROR : ℕ := 1

/-- Return code `EFC_RC_INVALID` of the `efc_rc` enumeration in efc.h
(the enumerator after `EFC_RC_ERROR = 1`, hence 2). -/
def EFC_RC_INVALID : ℕ := 2

/-- Return code `EFC_RC_NOT_SUPPORT` of the `efc_rc` enumeration in efc.h. -/
def EFC_RC_NOT_SUPPORT : ℕ := 0xFFFFFFFF

/-- Observable actions of the driver: writes to the EEFC_FMR (Mode) and
EEFC_FCR (Command) registers, reads of the EEFC_FSR (Status) register,
and writes into the caller's output buffer. -/
inductive Event where
  | writeFmr (v : ℕ)
  | writeFcr (v : ℕ)
  | readFsr (v : ℕ)
  | writeBuf (i : ℕ) (v : ℕ)
deriving DecidableEq, Repr

/-- Whether an event is a write to a hardware register (Mode or Command). -/
def Event.isRegWrite : Event → Bool
  | .writeFmr _ => true
  | .writeFcr _ => true
  | .readFsr _ => false
  | .writeBuf _ _ => false

/-- Whether an event is a write to the Command register. -/
def Event.isFcrWrite : Event → Bool
  | .writeFcr _ => true
  | _ => false

/-- Whether an event is a read of the Status register. -/
def Event.isFsrRead : Event → Bool
  | .readFsr _ => true
  | _ => false

/-- Whether an event is a write into the output buffer. -/
def Event.isBufWrite : Event → Bool
  | .writeBuf _ _ => true
  | _ => false

/-- One of the C `do { ul_status = p_efc->EEFC_FSR; } while (cond)` loops.
`idx` is the index of the next status read in the poll trace, `fuel` bounds
the number of reads.  Returns the poll index after the loop together with
the last status value read when the loop exits (`cond` false), or `none`
when the fuel is exhausted with `cond` still true (the C code would still
be spinning); in both cases the list of status-read events is returned. -/
def pollWhile (cond : ℕ → Bool) (fsrTrace : ℕ → ℕ) : ℕ → ℕ → Option (ℕ × ℕ) × List Event
  | _, 0 => (none, [])
  | idx, fuel + 1 =>
    let s := fsrTrace idx
    if cond s then
      let r := pollWhile cond fsrTrace (idx + 1) fuel
      (r.1, Event.readFsr s :: r.2)
    else
      (some (idx + 1, s), [Event.readFsr s])

/-- The copy loop of `efc_perform_read_sequence`:
`for (ul_cnt = 0; ul_cnt < ul_size; ul_cnt++) p_ul_buf[ul_cnt] = p_ul_data[ul_cnt];`.
The buffer is a total map from word index to word value; the result is the
updated buffer together with the buffer-write events in execution order. -/
def copyLoop (p_ul_data : ℕ → ℕ) (p_ul_buf : ℕ → ℕ) : ℕ → (ℕ → ℕ) × List Event
  | 0 => (p_ul_buf, [])
  | n + 1 =>
    let r := copyLoop p_ul_data p_ul_buf n
    (Function.update r.1 n (p_ul_data n), r.2 ++ [Event.writeBuf n (p_ul_data n)])

/-- Loop condition of the first busy-wait in `efc_perform_read_sequence`:
`(ul_status & EEFC_FSR_FRDY) == EEFC_FSR_FRDY` — the loop keeps spinning
while the Ready bit is still set, i.e. it waits for the falling edge. -/
def frdyHigh (s : ℕ) : Bool := (s &&& EEFC_FSR_FRDY) == EEFC_FSR_FRDY

/-- Loop condition of the second busy-wait in `efc_perform_read_sequence`
and of the busy-wait in `efc_perform_fcr`:
`(ul_status & EEFC_FSR_FRDY) != EEFC_FSR_FRDY` — the loop keeps spinning
while the Ready bit is still clear, i.e. it waits for the rising edge. -/
def frdyLow (s : ℕ) : Bool := (s &&& EEFC_FSR_FRDY) != EEFC_FSR_FRDY

/-- The Command-register word written by `efc_perform_read_sequence`, exactly
as efc.c builds it: `EEFC_FCR_FKEY_PASSWD | EEFC_FCR_FARG(0) | EEFC_FCR_FCMD(cmd)`. -/
def fcrWord (cmd : ℕ) : ℕ := EEFC_FCR_FKEY_PASSWD ||| EEFC_FCR_FARG 0 ||| EEFC_FCR_FCMD cmd

/-- Result of a call to `efc_perform_read_sequence`: the returned code
(`none` while the call is still blocked in a busy-wait loop), the final
value of the Mode register EEFC_FMR, the final contents of the caller's
output buffer, and the events performed so far. -/
structure ReadSeqResult where
  rc : Option ℕ
  fmr : ℕ
  buf : ℕ → ℕ
  events : List Event

/-- Shallow embedding of `efc_perform_read_sequence` from efc.c.
`fmr0` is the value of EEFC_FMR on entry, `bufNull` states whether the
`p_ul_buf` pointer is NULL, `p_ul_buf` the pointed-to buffer contents,
`ul_size` the word count, `p_ul_data` the source window, `fsrTrace` the
poll trace of EEFC_FSR and `fuel` the poll bound of each busy-wait loop. -/
def efc_perform_read_sequence (fmr0 ul_cmd_st ul_cmd_sp : ℕ) (bufNull : Bool)
    (p_ul_buf : ℕ → ℕ) (ul_size : ℕ) (p_ul_data fsrTrace : ℕ → ℕ)
    (fuel : ℕ) : ReadSeqResult :=
  if bufNull then
    ⟨some EFC_RC_INVALID, fmr0, p_ul_buf, []⟩
  else
    let fmr1 := fmr0 ||| (0x1 <<< 16)
    let fcrSt := fcrWord ul_cmd_st
    let evs0 := [Event.writeFmr fmr1, Event.writeFcr fcrSt]
    let poll1 := pollWhile frdyHigh fsrTrace 0 fuel
    match poll1.1 with
    | none => ⟨none, fmr1, p_ul_buf, evs0 ++ poll1.2⟩
    | some (idx1, _) =>
      let cp := copyLoop p_ul_data p_ul_buf ul_size
      let fcrSp := fcrWord ul_cmd_sp
      let poll2 := pollWhile frdyLow fsrTrace idx1 fuel
      match poll2.1 with
      | none =>
        ⟨none, fmr1, cp.1, evs0 ++ poll1.2 ++ cp.2 ++ [Event.writeFcr fcrSp] ++ poll2.2⟩
      | some _ =>
        let fmr2 := fmr1 &&& (0xFFFFFFFF ^^^ (0x1 <<< 16))
        ⟨some EFC_RC_OK, fmr2, cp.1,
          evs0 ++ poll1.2 ++ cp.2 ++ [Event.writeFcr fcrSp] ++ poll2.2
            ++ [Event.writeFmr fmr2]⟩

/-- Shallow embedding of `efc_perform_fcr` from efc.c.  `ul_fcr` is the
pre-encoded command word, `fsrTrace` the poll trace of EEFC_FSR, `fuel`
the poll bound.  The first component is the returned status (`none`
while the busy-wait loop is still spinning), the second the events. -/
def efc_perform_fcr (ul_fcr : ℕ) (fsrTrace : ℕ → ℕ) (fuel : ℕ) : Option ℕ × List Event :=
  let poll := pollWhile frdyLow fsrTrace 0 fuel
  match poll.1 with
  | none => (none, Event.writeFcr ul_fcr :: poll.2)
  | some (_, s) => (some (s &&& EEFC_ERROR_FLAGS), Event.writeFcr ul_fcr :: poll.2)

/-! Helper lemmas about the polling loop, the copy loop and bit masks. -/

/-- When the loop condition holds on every trace value, the busy-wait loop
never exits, whatever the fuel. -/
theorem pollWhile_none_of_cond (cond : ℕ → Bool) (fsrTrace : ℕ → ℕ)
    (h : ∀ k, cond (fsrTrace k) = true) :
    ∀ fuel idx, (pollWhile cond fsrTrace idx fuel).1 = none := by
  intro fuel
  induction fuel with
  | zero => intro idx; rfl
  | succ n ih =>
    intro idx
    simp only [pollWhile, h idx, if_true]
    exact ih (idx + 1)

/-- Every event produced by the busy-wait loop is a status-register read. -/
theorem pollWhile_events_read (cond : ℕ → Bool) (fsrTrace : ℕ → ℕ) :
    ∀ fuel idx e, e ∈ (pollWhile cond fsrTrace idx fuel).2 → e.isFsrRead = true := by
  intro fuel
  induction fuel with
  | zero => intro idx e he; simp [pollWhile] at he
  | succ n ih =>
    intro idx e he
    cases hc : cond (fsrTrace idx) with
    | true =>
      simp only [pollWhile, hc, if_true, List.mem_cons] at he
      rcases he with rfl | he
      · rfl
      · exact ih (idx + 1) e he
    | false =>
      simp only [pollWhile, hc, Bool.false_eq_true, if_false, List.mem_singleton] at he
      subst he; rfl

/-- When the busy-wait loop exits it does so at the first trace index, at or
after the starting index, whose value falsifies the loop condition, and the
returned status is the value read there. -/
theorem pollWhile_some (cond : ℕ → Bool) (fsrTrace : ℕ → ℕ) :
    ∀ fuel idx j s, (pollWhile cond fsrTrace idx fuel).1 = some (j, s) →
      ∃ k, idx ≤ k ∧ j = k + 1 ∧ s = fsrTrace k ∧ cond (fsrTrace k) = false ∧
        ∀ m, idx ≤ m → m < k → cond (fsrTrace m) = true := by
  intro fuel
  induction fuel with
  | zero => intro idx j s h; simp [pollWhile] at h
  | succ n ih =>
    intro idx j s h
    cases hc : cond (fsrTrace idx) with
    | true =>
      simp only [pollWhile, hc, if_true] at h
      obtain ⟨k, hk1, hk2, hk3, hk4, hk5⟩ := ih (idx + 1) j s h
      refine ⟨k, by omega, hk2, hk3, hk4, ?_⟩
      intro m hm1 hm2
      rcases Nat.eq_or_lt_of_le hm1 with rfl | hlt
      · exact hc
      · exact hk5 m hlt hm2
    | false =>
      simp only [pollWhile, hc, Bool.false_eq_true, if_false, Option.some.injEq,
        Prod.mk.injEq] at h
      exact ⟨idx, Nat.le_refl idx, h.1.symm, h.2.symm, hc,
        fun m hm1 hm2 => absurd hm1 (by omega)⟩

/-- The contents of the buffer after the copy loop: indices below the word
count hold the corresponding source words, all others are unchanged. -/
theorem copyLoop_fst (p_ul_data p_ul_buf : ℕ → ℕ) :
    ∀ n i, (copyLoop p_ul_data p_ul_buf n).1 i =
      if i < n then p_ul_data i else p_ul_buf i := by
  intro n
  induction n with
  | zero => intro i; simp [copyLoop]
  | succ m ih =>
    intro i
    simp only [copyLoop]
    by_cases hi : i = m
    · subst hi
      simp [Nat.lt_succ_self]
    · rw [Function.update_noteq hi, ih i]
      by_cases hlt : i < m
      · have h1 : i < m + 1 := by omega
        simp [hlt, h1]
      · have h1 : ¬ i < m + 1 := by omega
        simp [hlt, h1]

/-- The events of the copy loop: one buffer write per index, in ascending
index order, carrying the source word verbatim. -/
theorem copyLoop_snd (p_ul_data p_ul_buf : ℕ → ℕ) :
    ∀ n, (copyLoop p_ul_data p_ul_buf n).2 =
      (List.range n).map (fun i => Event.writeBuf i (p_ul_data i)) := by
  intro n
  induction n with
  | zero => simp [copyLoop]
  | succ m ih =>
    simp only [copyLoop, ih, List.range_succ, List.map_append, List.map_cons, List.map_nil]

/-- A bitwise or of naturals is zero exactly when both sides are zero. -/
theorem nat_or_eq_zero {x y : ℕ} : x ||| y = 0 ↔ x = 0 ∧ y = 0 := by
  constructor
  · intro h
    constructor
    · apply Nat.eq_of_testBit_eq
      intro i
      have hb := congrArg (fun t => Nat.testBit t i) h
      simp only [Nat.testBit_or, Nat.zero_testBit, Bool.or_eq_false_iff] at hb
      simp [hb.1]
    · apply Nat.eq_of_testBit_eq
      intro i
      have hb := congrArg (fun t => Nat.testBit t i) h
      simp only [Nat.testBit_or, Nat.zero_testBit, Bool.or_eq_false_iff] at hb
      simp [hb.2]
  · rintro ⟨rfl, rfl⟩
    rfl

/-- The masked status is zero exactly when each of the three error flags is
individually clear. -/
theorem error_flags_zero_iff (s : ℕ) :
    s &&& EEFC_ERROR_FLAGS = 0 ↔
      s &&& EEFC_FSR_FLOCKE = 0 ∧ s &&& EEFC_FSR_FCMDE = 0 ∧ s &&& EEFC_FSR_FLERR = 0 := by
  unfold EEFC_ERROR_FLAGS
  rw [Nat.and_or_distrib_left, Nat.and_or_distrib_left, nat_or_eq_zero, nat_or_eq_zero]
  tauto

/-- Modelled from the spec: the protection-key field of a Command-register
word, bits 31:24 per the spec's register table. -/
def fcrKeyField (v : ℕ) : ℕ := v >>> 24 &&& 0xFF

/-- Modelled from the spec: the argument field of a Command-register word,
the 16 bits between the command-code byte and the key byte (bits 23:8). -/
def fcrArgField (v : ℕ) : ℕ := v >>> 8 &&& 0xFFFF

/-- Modelled from the spec: the command-code field of a Command-register
word, bits 7:0 per the spec's register table. -/
def fcrCmdField (v : ℕ) : ℕ := v &&& 0xFF

/-- Normal form of the Command-register word built by efc.c: the key byte
0x5A in the top byte together with the command code reduced to its 8-bit
field; the argument contribution is zero. -/
theorem fcrWord_eq (cmd : ℕ) : fcrWord cmd = 0x5A000000 ||| cmd % 256 := by
  unfold fcrWord EEFC_FCR_FKEY_PASSWD EEFC_FCR_FARG EEFC_FCR_FCMD EEFC_FCR_FCMD_Msk EEFC_FCR_FCMD_Pos FWP_KEY
  have h1 : (0xFFFF <<< 8) &&& (0 <<< 8) = 0 := by decide
  have h2 : (0xFF : ℕ) &&& (cmd <<< 0) = cmd % 256 := by
    rw [Nat.shiftLeft_zero, Nat.and_comm]
    have h0 : (0xFF : ℕ) = 2 ^ 8 - 1 := by norm_num
    rw [h0, Nat.and_pow_two_sub_one_eq_mod]
  rw [h1, h2, Nat.or_zero]
  have h3 : (0x5A <<< 24 : ℕ) = 0x5A000000 := by decide
  rw [h3]

set_option maxRecDepth 4096 in
theorem fcrWord_fields_aux : ∀ d, d < 256 →
    fcrKeyField (0x5A000000 ||| d) = FWP_KEY ∧ fcrArgField (0x5A000000 ||| d) = 0 ∧
      fcrCmdField (0x5A000000 ||| d) = d := by decide

/-- Every Command-register word built by efc.c carries the protection key
0x5A in the key field, a zero argument field, and the command code (reduced
to its 8-bit field) in the command-code field. -/
theorem fcrWord_fields (cmd : ℕ) :
    fcrKeyField (fcrWord cmd) = FWP_KEY ∧ fcrArgField (fcrWord cmd) = 0 ∧
      fcrCmdField (fcrWord cmd) = cmd % 256 := by
  rw [fcrWord_eq]
  exact fcrWord_fields_aux (cmd % 256) (Nat.mod_lt _ (by norm_num))

/-- The event list of `efc_perform_fcr`, for any outcome: the single write of
the command word to EEFC_FCR followed by the status reads of the poll loop. -/
theorem efc_perform_fcr_snd (ul_fcr : ℕ) (fsrTrace : ℕ → ℕ) (fuel : ℕ) :
    (efc_perform_fcr ul_fcr fsrTrace fuel).2 =
      Event.writeFcr ul_fcr :: (pollWhile frdyLow fsrTrace 0 fuel).2 := by
  unfold efc_perform_fcr
  cases hp : (pollWhile frdyLow fsrTrace 0 fuel).1 with
  | none => simp [hp]
  | some p =>
    rcases p with ⟨a, b⟩
    simp [hp]

/-- Characterisation of the successful runs of `efc_perform_read_sequence`
with a non-null buffer: both poll loops exited, the returned code is
EFC_RC_OK, the final Mode value is the entry value with bit 16 set and then
cleared again, the buffer is the copy-loop result, and the events are the
Mode write, the start-command write, the first poll's status reads, the
buffer writes, the stop-command write, the second poll's status reads and
the final Mode write, in that order. -/
theorem read_sequence_success_shape (fmr0 st sp n fuel : ℕ)
    (buf src fsrTrace : ℕ → ℕ) (rc : ℕ)
    (h : (efc_perform_read_sequence fmr0 st sp false buf n src fsrTrace fuel).rc = some rc) :
    ∃ idx1 s1 idx2 s2,
      (pollWhile frdyHigh fsrTrace 0 fuel).1 = some (idx1, s1) ∧
      (pollWhile frdyLow fsrTrace idx1 fuel).1 = some (idx2, s2) ∧
      rc = EFC_RC_OK ∧
      efc_perform_read_sequence fmr0 st sp false buf n src fsrTrace fuel =
        ⟨some EFC_RC_OK,
         (fmr0 ||| (0x1 <<< 16)) &&& (0xFFFFFFFF ^^^ (0x1 <<< 16)),
         (copyLoop src buf n).1,
         [Event.writeFmr (fmr0 ||| (0x1 <<< 16)), Event.writeFcr (fcrWord st)]
           ++ (pollWhile frdyHigh fsrTrace 0 fuel).2
           ++ (copyLoop src buf n).2
           ++ [Event.writeFcr (fcrWord sp)]
           ++ (pollWhile frdyLow fsrTrace idx1 fuel).2
           ++ [Event.writeFmr ((fmr0 ||| (0x1 <<< 16)) &&& (0xFFFFFFFF ^^^ (0x1 <<< 16)))]⟩ := by
  unfold efc_perform_read_sequence at h ⊢
  cases hp1 : (pollWhile frdyHigh fsrTrace 0 fuel).1 with
  | none => simp [hp1] at h
  | some p1 =>
    rcases p1 with ⟨idx1, s1⟩
    cases hp2 : (pollWhile frdyLow fsrTrace idx1 fuel).1 with
    | none => simp [hp1, hp2] at h
    | some p2 =>
      rcases p2 with ⟨idx2, s2⟩
      simp only [Bool.false_eq_true, if_false, hp1, hp2] at h ⊢
      refine ⟨idx1, s1, idx2, s2, rfl, hp2, ?_, ?_⟩
      · simpa using h.symm
      · rfl

/-- A status-read event is not a buffer write. -/
theorem fsrRead_not_bufWrite {e : Event} (h : e.isFsrRead = true) : e.isBufWrite = false := by
  cases e <;> simp [Event.isFsrRead, Event.isBufWrite] at h ⊢

/-- A status-read event is not a Command-register write. -/
theorem fsrRead_not_fcrWrite {e : Event} (h : e.isFsrRead = true) : e.isFcrWrite = false := by
  cases e <;> simp [Event.isFsrRead, Event.isFcrWrite] at h ⊢

/-- A status-read event is not a register write. -/
theorem fsrRead_not_regWrite {e : Event} (h : e.isFsrRead = true) : e.isRegWrite = false := by
  cases e <;> simp [Event.isFsrRead, Event.isRegWrite] at h ⊢

/-- A list of status reads contains no buffer writes. -/
theorem filter_buf_of_reads (l : List Event) (hl : ∀ e ∈ l, e.isFsrRead = true) :
    l.filter Event.isBufWrite = [] := by
  rw [List.filter_eq_nil_iff]
  intro e he
  simp [fsrRead_not_bufWrite (hl e he)]

/-- A list of status reads contains no Command-register writes. -/
theorem filter_fcr_of_reads (l : List Event) (hl : ∀ e ∈ l, e.isFsrRead = true) :
    l.filter Event.isFcrWrite = [] := by
  rw [List.filter_eq_nil_iff]
  intro e he
  simp [fsrRead_not_fcrWrite (hl e he)]

/-- Filtering for buffer writes keeps a list of buffer writes whole. -/
theorem filter_buf_of_writes (l : List Event) (hl : ∀ e ∈ l, e.isBufWrite = true) :
    l.filter Event.isBufWrite = l :=
  List.filter_eq_self.mpr hl

/-- Every event of the copy loop is a buffer write. -/
theorem copyLoop_all_bufWrites (src buf : ℕ → ℕ) (n : ℕ) :
    ∀ e ∈ (copyLoop src buf n).2, e.isBufWrite = true := by
  intro e he
  rw [copyLoop_snd] at he
  obtain ⟨i, _, rfl⟩ := List.mem_map.mp he
  rfl

/-- The copy loop writes no Command register. -/
theorem copyLoop_no_fcrWrites (src buf : ℕ → ℕ) (n : ℕ) :
    (copyLoop src buf n).2.filter Event.isFcrWrite = [] := by
  rw [List.filter_eq_nil_iff]
  intro e he
  rw [copyLoop_snd] at he
  obtain ⟨i, _, rfl⟩ := List.mem_map.mp he
  simp [Event.isFcrWrite]

/-- C1: the first busy-poll of `efc_perform_read_sequence` waits for the
Ready bit to clear while the second waits for it to set, so on a hardware
trace whose status reads always have Ready set the function never exits the
first poll: whatever the poll bound, it returns no code, leaves the output
buffer untouched and performs no buffer write — it never reaches the copy
step. -/
theorem c1_blocked_when_ready_never_clears (fmr0 st sp : ℕ) (buf : ℕ → ℕ) (n : ℕ)
    (src fsrTrace : ℕ → ℕ)
    (hrdy : ∀ k, fsrTrace k &&& EEFC_FSR_FRDY = EEFC_FSR_FRDY) (fuel : ℕ) :
    (efc_perform_read_sequence fmr0 st sp false buf n src fsrTrace fuel).rc = none ∧
    (efc_perform_read_sequence fmr0 st sp false buf n src fsrTrace fuel).buf = buf ∧
    (efc_perform_read_sequence fmr0 st sp false buf n src fsrTrace fuel).events.filter
      Event.isBufWrite = [] := by
  have hcond : ∀ k, frdyHigh (fsrTrace k) = true := by
    intro k
    unfold frdyHigh
    rw [hrdy k]
    exact beq_self_eq_true _
  have hp := pollWhile_none_of_cond frdyHigh fsrTrace hcond fuel 0
  unfold efc_perform_read_sequence
  simp only [Bool.false_eq_true, if_false, hp]
  refine ⟨trivial, trivial, ?_⟩
  rw [List.filter_append]
  rw [filter_buf_of_reads _ (fun e he => pollWhile_events_read frdyHigh fsrTrace fuel 0 e he)]
  rfl

/-- C2: whenever `efc_perform_read_sequence` with a non-null buffer returns a
code, that code is EFC_RC_OK, every buffer index below the word count holds
the corresponding source word verbatim, and the buffer writes it performed
are exactly one write per index 0..wordCount-1, in ascending index order. -/
theorem c2_copies_exactly_n_words (fmr0 st sp n fuel rc : ℕ) (buf src fsrTrace : ℕ → ℕ)
    (h : (efc_perform_read_sequence fmr0 st sp false buf n src fsrTrace fuel).rc = some rc) :
    rc = EFC_RC_OK ∧
    (∀ i, i < n →
      (efc_perform_read_sequence fmr0 st sp false buf n src fsrTrace fuel).buf i = src i) ∧
    (efc_perform_read_sequence fmr0 st sp false buf n src fsrTrace fuel).events.filter
        Event.isBufWrite
      = (List.range n).map (fun i => Event.writeBuf i (src i)) := by
  obtain ⟨idx1, s1, idx2, s2, hp1, hp2, hrc, hE⟩ :=
    read_sequence_success_shape fmr0 st sp n fuel buf src fsrTrace rc h
  refine ⟨hrc, ?_, ?_⟩
  · intro i hi
    rw [hE]
    show (copyLoop src buf n).1 i = src i
    rw [copyLoop_fst]
    simp [hi]
  · rw [hE]
    show ([Event.writeFmr _, Event.writeFcr _] ++ _ ++ _ ++ [Event.writeFcr _] ++ _
      ++ [Event.writeFmr _]).filter Event.isBufWrite = _
    simp only [List.filter_append]
    rw [filter_buf_of_reads _ (fun e he => pollWhile_events_read frdyHigh fsrTrace fuel 0 e he),
      filter_buf_of_reads _ (fun e he => pollWhile_events_read frdyLow fsrTrace fuel idx1 e he),
      filter_buf_of_writes _ (copyLoop_all_bufWrites src buf n), copyLoop_snd]
    simp [List.filter_cons, Event.isBufWrite]

/-- C3: whenever `efc_perform_fcr` returns, the returned value is the status
value of the first poll on which Ready was set, masked to the three error
flags LockError, CommandError and ProgrammingError (Ready excluded), and it
is zero exactly when none of the three error flags was set at that poll. -/
theorem c3_fcr_masked_first_ready_status (ul_fcr fuel r : ℕ) (fsrTrace : ℕ → ℕ)
    (evs : List Event)
    (h : efc_perform_fcr ul_fcr fsrTrace fuel = (some r, evs)) :
    ∃ k, (∀ j, j < k → ¬ fsrTrace j &&& EEFC_FSR_FRDY = EEFC_FSR_FRDY) ∧
      fsrTrace k &&& EEFC_FSR_FRDY = EEFC_FSR_FRDY ∧
      r = fsrTrace k &&& EEFC_ERROR_FLAGS ∧
      (r = 0 ↔ fsrTrace k &&& EEFC_FSR_FLOCKE = 0 ∧ fsrTrace k &&& EEFC_FSR_FCMDE = 0 ∧
        fsrTrace k &&& EEFC_FSR_FLERR = 0) := by
  unfold efc_perform_fcr at h
  cases hp : (pollWhile frdyLow fsrTrace 0 fuel).1 with
  | none => simp [hp] at h
  | some p =>
    rcases p with ⟨j, s⟩
    simp only [hp] at h
    have hr : r = s &&& EEFC_ERROR_FLAGS := by
      have hfst := congrArg Prod.fst h
      simp at hfst
      omega
    obtain ⟨k, hk0, hkj, hks, hkc, hkfirst⟩ := pollWhile_some frdyLow fsrTrace fuel 0 j s hp
    subst hks
    refine ⟨k, ?_, ?_, hr, ?_⟩
    · intro m hm
      have hmf := hkfirst m (Nat.zero_le m) hm
      unfold frdyLow at hmf
      simpa using hmf
    · unfold frdyLow at hkc
      simpa using hkc
    · rw [hr]
      exact error_flags_zero_iff (fsrTrace k)

/-- C4: when the output buffer pointer is NULL, `efc_perform_read_sequence`
returns EFC_RC_INVALID immediately, the Mode register keeps its entry value,
the buffer is untouched, and no hardware register is read or written — the
event list of the call is empty. -/
theorem c4_null_buffer_untouched (fmr0 ul_cmd_st ul_cmd_sp : ℕ)
    (p_ul_buf : ℕ → ℕ) (ul_size : ℕ) (p_ul_data fsrTrace : ℕ → ℕ) (fuel : ℕ) :
    efc_perform_read_sequence fmr0 ul_cmd_st ul_cmd_sp true p_ul_buf ul_size p_ul_data fsrTrace fuel
      = ⟨some EFC_RC_INVALID, fmr0, p_ul_buf, []⟩ := rfl

/-- C5: after a successful `efc_perform_read_sequence` with the special-read
bit (bit 16) of the Mode register clear on entry, the final Mode value equals
the entry value and in particular has bit 16 clear again: the bit set on
entry to the sequence is restored to its pre-call value. -/
theorem c5_mode_bit_restored (fmr0 st sp n fuel rc : ℕ) (buf src fsrTrace : ℕ → ℕ)
    (h : (efc_perform_read_sequence fmr0 st sp false buf n src fsrTrace fuel).rc = some rc)
    (hlt : fmr0 < 2 ^ 32) (hbit : fmr0.testBit 16 = false) :
    (efc_perform_read_sequence fmr0 st sp false buf n src fsrTrace fuel).fmr = fmr0 ∧
    Nat.testBit (efc_perform_read_sequence fmr0 st sp false buf n src fsrTrace fuel).fmr 16
      = false := by
  obtain ⟨idx1, s1, idx2, s2, hp1, hp2, hrc, hE⟩ :=
    read_sequence_success_shape fmr0 st sp n fuel buf src fsrTrace rc h
  rw [hE]
  suffices hs : (fmr0 ||| (0x1 <<< 16)) &&& (0xFFFFFFFF ^^^ (0x1 <<< 16)) = fmr0 by
    show (fmr0 ||| (0x1 <<< 16)) &&& (0xFFFFFFFF ^^^ (0x1 <<< 16)) = fmr0 ∧
      Nat.testBit ((fmr0 ||| (0x1 <<< 16)) &&& (0xFFFFFFFF ^^^ (0x1 <<< 16))) 16 = false
    rw [hs]
    exact ⟨rfl, hbit⟩
  have h16 : (0x1 <<< 16 : ℕ) = 2 ^ 16 := by norm_num [Nat.shiftLeft_eq]
  have h32 : (0xFFFFFFFF : ℕ) = 2 ^ 32 - 1 := by norm_num
  rw [h16, h32]
  apply Nat.eq_of_testBit_eq
  intro i
  simp only [Nat.testBit_and, Nat.testBit_or, Nat.testBit_xor, Nat.testBit_two_pow_sub_one,
    Nat.testBit_two_pow]
  by_cases hieq : (16 : ℕ) = i
  · subst hieq
    simp [hbit]
  · by_cases hi32 : i < 32
    · simp [hieq, hi32]
    · have hfalse : fmr0.testBit i = false :=
        Nat.testBit_lt_two_pow (Nat.lt_of_lt_of_le hlt
          (Nat.pow_le_pow_right (by norm_num) (Nat.not_lt.mp hi32)))
      simp [hieq, hi32, hfalse]

/-- C6: on a completed `efc_perform_read_sequence`, the Command-register
writes are exactly two — first the start command, then the stop command —
and each written word carries the protection key 0x5A in the key field, a
zero argument field, and the respective command code (reduced to its 8-bit
field) in the command-code field. -/
theorem c6_command_writes_carry_key (fmr0 st sp n fuel rc : ℕ) (buf src fsrTrace : ℕ → ℕ)
    (h : (efc_perform_read_sequence fmr0 st sp false buf n src fsrTrace fuel).rc = some rc) :
    ∃ w1 w2,
      (efc_perform_read_sequence fmr0 st sp false buf n src fsrTrace fuel).events.filter
        Event.isFcrWrite = [Event.writeFcr w1, Event.writeFcr w2] ∧
      w1 = fcrWord st ∧ w2 = fcrWord sp ∧
      fcrKeyField w1 = FWP_KEY ∧ fcrArgField w1 = 0 ∧ fcrCmdField w1 = st % 256 ∧
      fcrKeyField w2 = FWP_KEY ∧ fcrArgField w2 = 0 ∧ fcrCmdField w2 = sp % 256 := by
  obtain ⟨idx1, s1, idx2, s2, hp1, hp2, hrc, hE⟩ :=
    read_sequence_success_shape fmr0 st sp n fuel buf src fsrTrace rc h
  refine ⟨fcrWord st, fcrWord sp, ?_, rfl, rfl, (fcrWord_fields st).1, (fcrWord_fields st).2.1,
    (fcrWord_fields st).2.2, (fcrWord_fields sp).1, (fcrWord_fields sp).2.1,
    (fcrWord_fields sp).2.2⟩
  rw [hE]
  show ([Event.writeFmr _, Event.writeFcr _] ++ _ ++ _ ++ [Event.writeFcr _] ++ _
    ++ [Event.writeFmr _]).filter Event.isFcrWrite = _
  simp only [List.filter_append]
  rw [filter_fcr_of_reads _ (fun e he => pollWhile_events_read frdyHigh fsrTrace fuel 0 e he),
    filter_fcr_of_reads _ (fun e he => pollWhile_events_read frdyLow fsrTrace fuel idx1 e he),
    copyLoop_no_fcrWrites]
  simp [List.filter_cons, Event.isFcrWrite]

/-- C7: `efc_perform_fcr` is a function of the command word and the poll
trace alone: two calls with the same command word against pointwise-equal
hardware response traces return the same status and perform the same
events. -/
theorem c7_fcr_deterministic (ul_fcr fuel : ℕ) (t1 t2 : ℕ → ℕ) (h : ∀ k, t1 k = t2 k) :
    efc_perform_fcr ul_fcr t1 fuel = efc_perform_fcr ul_fcr t2 fuel := by
  have ht : t1 = t2 := funext h
  rw [ht]

/-- C8: `efc_perform_fcr` performs exactly one hardware register write, the
write of the given command word to the Command register, and every other
event of the call is a read of the Status register; in particular it never
writes the Mode or Status registers and never re-issues the command. -/
theorem c8_fcr_single_register_write (ul_fcr fuel : ℕ) (fsrTrace : ℕ → ℕ) :
    (efc_perform_fcr ul_fcr fsrTrace fuel).2.filter Event.isRegWrite
      = [Event.writeFcr ul_fcr] ∧
    ∀ e ∈ (efc_perform_fcr ul_fcr fsrTrace fuel).2,
      e = Event.writeFcr ul_fcr ∨ e.isFsrRead = true := by
  rw [efc_perform_fcr_snd]
  constructor
  · rw [List.filter_cons]
    have h1 : Event.isRegWrite (Event.writeFcr ul_fcr) = true := rfl
    rw [if_pos h1]
    have h2 : (pollWhile frdyLow fsrTrace 0 fuel).2.filter Event.isRegWrite = [] := by
      rw [List.filter_eq_nil_iff]
      intro e he
      simp [fsrRead_not_regWrite (pollWhile_events_read frdyLow fsrTrace fuel 0 e he)]
    rw [h2]
  · intro e he
    rcases List.mem_cons.mp he with rfl | he2
    · exact Or.inl rfl
    · exact Or.inr (pollWhile_events_read frdyLow fsrTrace fuel 0 e he2)

/-- C9: with a non-null buffer, `efc_perform_read_sequence` leaves every
buffer element at an index at or beyond the word count unchanged, whatever
the outcome of the call: only indices 0..wordCount-1 are ever written. -/
theorem c9_untouched_beyond_word_count (fmr0 st sp n fuel : ℕ) (buf src fsrTrace : ℕ → ℕ)
    (i : ℕ) (hi : n ≤ i) :
    (efc_perform_read_sequence fmr0 st sp false buf n src fsrTrace fuel).buf i = buf i := by
  unfold efc_perform_read_sequence
  simp only [Bool.false_eq_true, if_false]
  cases hp1 : (pollWhile frdyHigh fsrTrace 0 fuel).1 with
  | none => rfl
  | some p1 =>
    rcases p1 with ⟨idx1, s1⟩
    cases hp2 : (pollWhile frdyLow fsrTrace idx1 fuel).1 with
    | none =>
      simp only [hp2]
      rw [copyLoop_fst]
      simp [Nat.not_lt.mpr hi]
    | some p2 =>
      simp only [hp2]
      rw [copyLoop_fst]
      simp [Nat.not_lt.mpr hi]

/-- C10: every code `efc_perform_read_sequence` returns is either EFC_RC_OK
or EFC_RC_INVALID — never EFC_RC_ERROR, never EFC_RC_NOT_SUPPORT — and it is
EFC_RC_INVALID exactly when the output buffer pointer was NULL. -/
theorem c10_return_codes (fmr0 st sp : ℕ) (bufNull : Bool) (buf : ℕ → ℕ) (n : ℕ)
    (src fsrTrace : ℕ → ℕ) (fuel rc : ℕ)
    (h : (efc_perform_read_sequence fmr0 st sp bufNull buf n src fsrTrace fuel).rc = some rc) :
    (rc = EFC_RC_OK ∨ rc = EFC_RC_INVALID) ∧ rc ≠ EFC_RC_ERROR ∧ rc ≠ EFC_RC_NOT_SUPPORT ∧
      (rc = EFC_RC_INVALID ↔ bufNull = true) := by
  cases bufNull with
  | true =>
    have h0 : rc = EFC_RC_INVALID := by
      have h1 := h
      simp [efc_perform_read_sequence] at h1
      omega
    subst h0
    exact ⟨Or.inr rfl, by decide, by decide, by simp⟩
  | false =>
    obtain ⟨_, _, _, _, _, _, hrc, _⟩ :=
      read_sequence_success_shape fmr0 st sp n fuel buf src fsrTrace rc h
    subst hrc
    exact ⟨Or.inl rfl, by decide, by decide, by simp [EFC_RC_OK, EFC_RC_INVALID]⟩

/-- Concrete poll trace for the example runs: Ready reads clear on the first
poll and set on every later poll. -/
def exTrace : ℕ → ℕ := fun k => if k = 0 then 0 else 1

/-- Concrete poll trace on which Ready reads clear on the first two polls
and then set together with the LockError flag. -/
def exTraceErr : ℕ → ℕ := fun k => if k < 2 then 0 else 5

/-- Concrete source window for the example runs. -/
def exSrc : ℕ → ℕ := fun i => i + 10

/-- Concrete initial buffer contents for the example runs. -/
def exBuf : ℕ → ℕ := fun _ => 7

/-- Witness for C1 on the constant always-Ready trace. -/
theorem c1_blocked_witness :
    (efc_perform_read_sequence 0 14 15 false exBuf 4 exSrc (fun _ => 1) 5).rc = none ∧
    (efc_perform_read_sequence 0 14 15 false exBuf 4 exSrc (fun _ => 1) 5).buf = exBuf ∧
    (efc_perform_read_sequence 0 14 15 false exBuf 4 exSrc (fun _ => 1) 5).events.filter
      Event.isBufWrite = [] :=
  c1_blocked_when_ready_never_clears 0 14 15 exBuf 4 exSrc (fun _ => 1)
    (fun _ => show (1 : ℕ) &&& EEFC_FSR_FRDY = EEFC_FSR_FRDY by decide) 5

/-- Witness for C2 on a completing two-word run. -/
theorem c2_copies_witness :
    (efc_perform_read_sequence 0 14 15 false exBuf 2 exSrc exTrace 3).buf 0 = 10 ∧
    (efc_perform_read_sequence 0 14 15 false exBuf 2 exSrc exTrace 3).buf 1 = 11 ∧
    (efc_perform_read_sequence 0 14 15 false exBuf 2 exSrc exTrace 3).events.filter
      Event.isBufWrite = [Event.writeBuf 0 10, Event.writeBuf 1 11] := by
  have hc := c2_copies_exactly_n_words 0 14 15 2 3 0 exBuf exSrc exTrace rfl
  refine ⟨hc.2.1 0 (by norm_num), hc.2.1 1 (by norm_num), ?_⟩
  rw [hc.2.2]
  rfl

/-- Witness for C3 on a run whose first Ready poll also reports LockError. -/
theorem c3_fcr_status_witness :
    ∃ k, (∀ j, j < k → ¬ exTraceErr j &&& EEFC_FSR_FRDY = EEFC_FSR_FRDY) ∧
      exTraceErr k &&& EEFC_FSR_FRDY = EEFC_FSR_FRDY ∧
      4 = exTraceErr k &&& EEFC_ERROR_FLAGS ∧
      (4 = 0 ↔ exTraceErr k &&& EEFC_FSR_FLOCKE = 0 ∧ exTraceErr k &&& EEFC_FSR_FCMDE = 0 ∧
        exTraceErr k &&& EEFC_FSR_FLERR = 0) :=
  c3_fcr_masked_first_ready_status 0x5A000001 5 4 exTraceErr
    [Event.writeFcr 0x5A000001, Event.readFsr 0, Event.readFsr 0, Event.readFsr 5] rfl

/-- Witness for C5 on a completing run entered with Mode zero. -/
theorem c5_mode_restored_witness :
    (efc_perform_read_sequence 0 14 15 false exBuf 2 exSrc exTrace 3).fmr = 0 ∧
    Nat.testBit (efc_perform_read_sequence 0 14 15 false exBuf 2 exSrc exTrace 3).fmr 16
      = false :=
  c5_mode_bit_restored 0 14 15 2 3 0 exBuf exSrc exTrace rfl (by norm_num) (by decide)

/-- Witness for C6 on a completing run with the unique-ID command pair. -/
theorem c6_command_key_witness :
    ∃ w1 w2,
      (efc_perform_read_sequence 0 14 15 false exBuf 2 exSrc exTrace 3).events.filter
        Event.isFcrWrite = [Event.writeFcr w1, Event.writeFcr w2] ∧
      w1 = fcrWord 14 ∧ w2 = fcrWord 15 ∧
      fcrKeyField w1 = FWP_KEY ∧ fcrArgField w1 = 0 ∧ fcrCmdField w1 = 14 % 256 ∧
      fcrKeyField w2 = FWP_KEY ∧ fcrArgField w2 = 0 ∧ fcrCmdField w2 = 15 % 256 :=
  c6_command_writes_carry_key 0 14 15 2 3 0 exBuf exSrc exTrace rfl

/-- Witness for C7 with the same concrete trace supplied for both runs. -/
theorem c7_fcr_deterministic_witness :
    efc_perform_fcr 0x5A000005 exTrace 3 = efc_perform_fcr 0x5A000005 exTrace 3 :=
  c7_fcr_deterministic 0x5A000005 3 exTrace exTrace (fun _ => rfl)

/-- Witness for C9: index 5 of a two-word run keeps its initial value 7. -/
theorem c9_frame_witness :
    (efc_perform_read_sequence 0 14 15 false exBuf 2 exSrc exTrace 3).buf 5 = 7 :=
  c9_untouched_beyond_word_count 0 14 15 2 3 exBuf exSrc exTrace 5 (by norm_num)

/-- Witness for C10 on a completing non-null run. -/
theorem c10_return_codes_witness :
    (0 = EFC_RC_OK ∨ 0 = EFC_RC_INVALID) ∧ 0 ≠ EFC_RC_ERROR ∧ 0 ≠ EFC_RC_NOT_SUPPORT ∧
      (0 = EFC_RC_INVALID ↔ false = true) :=
  c10_return_codes 0 14 15 false exBuf 2 exSrc exTrace 3 0 rfl
